import Mathlib

/-!
Verification of the server-managment metrics broadcaster (src/main.go).

Shallow embedding conventions:
* float64 values are modelled exactly as canonical significand/exponent
  pairs (structure F below); the float64 operations used by
  truncateToDecimals (multiplication and division, correctly rounded per
  IEEE-754 round-to-nearest-even) are modelled by exact integer
  arithmetic on those pairs.  math.Trunc is exact on float64 and is
  modelled exactly.  Overflow and subnormals are out of range for every
  value this development touches.
* uint64 arithmetic is modelled on Nat with explicit reduction mod 2^64.
* the Go map networkMetrics (map[string]NetworkUsage) is modelled as a
  function String -> Option NetworkUsage; assignment overwrites.
* fallible collaborator calls (gopsutil cpu/mem/disk/net, pm2 jlist) are
  modelled as inputs of type Except Unit _; getMetrics is then a pure
  function of those results and of the counter state, mirroring
  src/main.go:97-160 line by line.
* one iteration of the sendMetrics loop body (src/main.go:164-190) is
  the pure function sendMetricsTick; the outcome of conn.WriteJSON for
  each subscriber is an input predicate.  sort.Slice (src/main.go:149)
  guarantees a permutation that is nondecreasing in the sort key and
  nothing about the relative order of equal keys; it is modelled by
  insertion sort on the same key, which satisfies that contract.
-/

namespace ServerManagment

/-! ## Exact model of float64 values and of the rounding of rationals -/

/-- A float64 value: the rational number m * 2^x.  Canonical form
(produced by roundRat): m = 0 and x = 0, or 2^52 <= |m| < 2^53. -/
structure F where
  m : ℤ
  x : ℤ
deriving DecidableEq, Repr

/-- Fuel-based binary logarithm on Nat (fuel >= n makes it total);
structural recursion so that the kernel can evaluate it. -/
def log2Nat : ℕ → ℕ → ℕ
  | 0, _ => 0
  | fuel+1, n => if n ≤ 1 then 0 else log2Nat fuel (n / 2) + 1

/-- Decide 2^e <= a / b for positive naturals a, b. -/
def pow2LeFrac (e : ℤ) (a b : ℕ) : Bool :=
  if 0 ≤ e then b * 2 ^ e.toNat ≤ a else b ≤ a * 2 ^ (-e).toNat

/-- Floor of the binary logarithm of a / b (a, b >= 1). -/
def flog2 (a b : ℕ) : ℤ :=
  let e0 : ℤ := (log2Nat a a : ℤ) - (log2Nat b b : ℤ)
  if pow2LeFrac e0 a b then e0 else e0 - 1

/-- Round num / den (den > 0) to the nearest integer, ties to even. -/
def rneFrac (num den : ℤ) : ℤ :=
  let f := Int.fdiv num den
  let r := num - f * den
  if 2 * r < den then f
  else if den < 2 * r then f + 1
  else if f % 2 = 0 then f else f + 1

/-- IEEE-754 binary64 rounding of the rational n / d (d > 0): round the
53-bit significand to nearest, ties to even.  Exact for results in the
normal range. -/
def roundRat (n : ℤ) (d : ℕ) : F :=
  if n = 0 then ⟨0, 0⟩
  else
    let a := n.natAbs
    let e := flog2 a d
    let s := 52 - e
    let mAbs : ℤ :=
      if 0 ≤ s then rneFrac (a * 2 ^ s.toNat) d
      else rneFrac a (d * 2 ^ (-s).toNat)
    let p : ℤ × ℤ := if mAbs = 2 ^ 53 then (2 ^ 52, e + 1) else (mAbs, e)
    ⟨if 0 ≤ n then p.1 else -p.1, p.2 - 52⟩

/-- The exact value of a float64 as a fraction (numerator, positive
power-of-two denominator). -/
def toPair (f : F) : ℤ × ℕ :=
  if 0 ≤ f.x then (f.m * 2 ^ f.x.toNat, 1) else (f.m, 2 ^ (-f.x).toNat)

/-- float64 multiplication: correctly rounded product. -/
def fmulF (f g : F) : F :=
  let p := toPair f
  let q := toPair g
  roundRat (p.1 * q.1) (p.2 * q.2)

/-- float64 division: correctly rounded quotient. -/
def fdivF (f g : F) : F :=
  let p := toPair f
  let q := toPair g
  let num := p.1 * (q.2 : ℤ)
  let den := (p.2 : ℤ) * q.1
  if 0 ≤ den then roundRat num den.natAbs else roundRat (-num) den.natAbs

/-- Go math.Trunc: truncation toward zero, exact on float64. -/
def mathTruncF (f : F) : F :=
  if 0 ≤ f.x then f
  else roundRat (Int.tdiv f.m (2 ^ (-f.x).toNat)) 1

/-- src/main.go:81-84.  mul := math.Pow(10, precision) is the exact
float64 value 10^precision whenever 10^precision is representable; the
spec's claims only use precision = 2, where math.Pow(10, 2) = 100.0
exactly.  value*mul and the final division are float64 operations. -/
def truncateToDecimals (value : F) (precision : ℕ) : F :=
  let mul := roundRat (10 ^ precision) 1
  fdivF (mathTruncF (fmulF value mul)) mul

/-- Truncation toward zero on rationals (math.Trunc idealized). -/
def mathTruncQ (q : ℚ) : ℤ :=
  if 0 ≤ q then ⌊q⌋ else ⌈q⌉

/-- The exact-arithmetic idealization of truncateToDecimals (no
intermediate float64 rounding), for comparison with the spec's claim. -/
def truncateToDecimalsExact (value : ℚ) (precision : ℕ) : ℚ :=
  let mul : ℚ := 10 ^ precision
  (mathTruncQ (value * mul) : ℚ) / mul

/-- The rational value denoted by a float64. -/
def toRat (f : F) : ℚ := (f.m : ℚ) * 2 ^ f.x

/-! ## Data model (src/main.go:46-79) -/

/-- src/main.go:46-50: one entry of the network field / one stored
cumulative counter pair.  uint64 fields are Nats below 2^64. -/
structure NetworkUsage where
  name : String
  bytesSent : ℕ
  bytesRecv : ℕ
deriving DecidableEq, Repr

/-- The fields of gopsutil net.IOCountersStat read by getMetrics:
cumulative per-interface counters reported by the provider. -/
structure IOCountersStat where
  name : String
  bytesSent : ℕ
  bytesRecv : ℕ
deriving DecidableEq, Repr

/-- Memory block of Metrics (src/main.go:54-58); also the fields of
mem.VirtualMemory used by getMetrics. -/
structure MemInfo where
  total : ℕ
  free : ℕ
  used : ℕ
deriving DecidableEq, Repr

/-- Disk block of Metrics (src/main.go:59-63); also the fields of
disk.Usage used by getMetrics. -/
structure DiskInfo where
  total : ℕ
  free : ℕ
  used : ℕ
deriving DecidableEq, Repr

/-- Monit block of PM2Process (src/main.go:72-75). -/
structure MonitInfo where
  memory : ℤ
  cpu : ℤ
deriving DecidableEq, Repr

/-- PM2Env block of PM2Process (src/main.go:76-78). -/
structure PM2EnvInfo where
  status : String
deriving DecidableEq, Repr

/-- src/main.go:68-79: one managed-process record. -/
structure PM2Process where
  name : String
  pid : ℤ
  pmId : ℤ
  monit : MonitInfo
  pm2Env : PM2EnvInfo
deriving DecidableEq, Repr

/-- src/main.go:52-66: the snapshot broadcast each cycle.  pm2 = none
models the nil slice left when getPm2Metrics fails. -/
structure Metrics where
  cpu : List F
  memory : MemInfo
  disk : DiskInfo
  network : List NetworkUsage
  pm2 : Option (List PM2Process)
deriving DecidableEq, Repr

/-- The persistent networkMetrics map (src/main.go:163), modelled as a
lookup function. -/
def NetState : Type := String → Option NetworkUsage

/-- uint64 subtraction a - b (with wraparound), for a, b < 2^64. -/
def usub (a b : ℕ) : ℕ := (a + 2 ^ 64 - b) % 2 ^ 64

/-- src/main.go:132-137: the delta entry emitted for one provider
entry, given the previously stored counters for its name (none when the
interface has no prior entry). -/
def mkDelta (prev : Option NetworkUsage) (stat : IOCountersStat) : NetworkUsage :=
  match prev with
  | some p => ⟨stat.name, usub stat.bytesSent p.bytesSent, usub stat.bytesRecv p.bytesRecv⟩
  | none => ⟨stat.name, stat.bytesSent, stat.bytesRecv⟩

/-- One iteration of the loop src/main.go:131-148: emit the delta entry
for stat and store stat's cumulative counters under its name. -/
def processStat (st : NetState) (stat : IOCountersStat) : NetworkUsage × NetState :=
  (mkDelta (st stat.name) stat,
   fun k => if k = stat.name then some ⟨stat.name, stat.bytesSent, stat.bytesRecv⟩ else st k)

/-- The whole loop src/main.go:131-148: deltas in provider order, and
the updated counter state. -/
def processNetStats (stats : List IOCountersStat) (st : NetState) :
    List NetworkUsage × NetState :=
  match stats with
  | [] => ([], st)
  | s :: rest =>
    let p := processStat st s
    let q := processNetStats rest p.2
    (p.1 :: q.1, q.2)

/-- The sort key of src/main.go:149-151. -/
def netLE (a b : NetworkUsage) : Prop := a.name ≤ b.name

instance : DecidableRel netLE := fun a b => inferInstanceAs (Decidable (a.name ≤ b.name))

instance : IsTotal NetworkUsage netLE := ⟨fun a b => le_total a.name b.name⟩

instance : IsTrans NetworkUsage netLE := ⟨fun _ _ _ h h' => le_trans h h'⟩

/-- src/main.go:149-151: sort.Slice by interface name ascending,
modelled by insertion sort on the same key (sort.Slice promises a
permutation with nondecreasing keys and fixes nothing else). -/
def sortNetwork (l : List NetworkUsage) : List NetworkUsage :=
  List.insertionSort netLE l

/-- Which mandatory provider query failed (the error returned at
src/main.go:102, 111, 119 or 127). -/
inductive Stage where
  | cpu
  | memory
  | disk
  | network
deriving DecidableEq, Repr

/-- The results of the five collaborator calls a single getMetrics call
would observe (cpu.Percent, mem.VirtualMemory, disk.Usage,
net.IOCounters, pm2 jlist). -/
structure ProviderData where
  cpuPercent : Except Unit (List F)
  virtualMemory : Except Unit MemInfo
  diskUsage : Except Unit DiskInfo
  ioCounters : Except Unit (List IOCountersStat)
  pm2Jlist : Except Unit (List PM2Process)

/-- src/main.go:154-157: the PM2 field is set only when getPm2Metrics
returned without error; otherwise it stays nil. -/
def pm2FromResult : Except Unit (List PM2Process) → Option (List PM2Process)
  | .ok procs => some procs
  | .error _ => none

/-- src/main.go:97-160: build one Metrics snapshot from the provider
results, threading the networkMetrics counter state. -/
def getMetrics (p : ProviderData) (networkMetrics : NetState) :
    Except Stage Metrics × NetState :=
  match p.cpuPercent with
  | .error _ => (.error .cpu, networkMetrics)
  | .ok cpuPercent =>
    match p.virtualMemory with
    | .error _ => (.error .memory, networkMetrics)
    | .ok memStats =>
      match p.diskUsage with
      | .error _ => (.error .disk, networkMetrics)
      | .ok diskStats =>
        match p.ioCounters with
        | .error _ => (.error .network, networkMetrics)
        | .ok netStats =>
          let pr := processNetStats netStats networkMetrics
          (.ok ⟨cpuPercent.map (fun v => truncateToDecimals v 2),
                ⟨memStats.total, memStats.free, memStats.used⟩,
                ⟨diskStats.total, diskStats.free, diskStats.used⟩,
                sortNetwork pr.1,
                pm2FromResult p.pm2Jlist⟩,
           pr.2)

/-- Observable outcome of one iteration of the sendMetrics loop body
(src/main.go:164-190): the registry after the iteration, the counter
state after it, what each subscriber was delivered, and the result of
the getMetrics call if one was made. -/
structure TickResult (Conn : Type) where
  registry : List Conn
  netState : NetState
  delivered : Conn → Option Metrics
  sampled : Option (Except Stage Metrics)

/-- One iteration of the sendMetrics loop body (src/main.go:164-190):
skip everything when the registry is empty (go: continue at line 170);
skip broadcasting when getMetrics fails (line 177); otherwise write the
snapshot to every registered subscriber, dropping (close + delete,
lines 185-186) exactly those whose write fails. -/
def sendMetricsTick {Conn : Type} [DecidableEq Conn] (conns : List Conn)
    (writeOk : Conn → Bool) (p : ProviderData) (st : NetState) : TickResult Conn :=
  if conns.isEmpty then ⟨conns, st, fun _ => none, none⟩
  else
    match getMetrics p st with
    | (.error e, st2) => ⟨conns, st2, fun _ => none, some (.error e)⟩
    | (.ok m, st2) =>
      ⟨conns.filter writeOk, st2,
       fun c => if c ∈ conns ∧ writeOk c then some m else none,
       some (.ok m)⟩

/-! ## Concrete instances used by the witnesses -/

/-- Empty counter state (the state sendMetrics starts from). -/
def exSt0 : NetState := fun _ => none

def exStatA : IOCountersStat := ⟨"eth0", 100, 200⟩

def exStatB : IOCountersStat := ⟨"eth0", 150, 260⟩

def exStatC : IOCountersStat := ⟨"wlan0", 10, 20⟩

def exMem : MemInfo := ⟨16, 8, 8⟩

def exDisk : DiskInfo := ⟨100, 60, 40⟩

/-- Provider results with a failing CPU query. -/
def exPcpuErr : ProviderData := ⟨.error (), .ok exMem, .ok exDisk, .ok [], .error ()⟩

/-- Provider results with a failing disk query. -/
def exPdiskErr : ProviderData := ⟨.ok [], .ok exMem, .error (), .ok [], .error ()⟩

/-- Successful mandatory queries, one interface eth0, pm2 failing. -/
def exP1 : ProviderData := ⟨.ok [], .ok exMem, .ok exDisk, .ok [exStatA], .error ()⟩

/-- Like exP1 but with eth0's counters advanced. -/
def exP2 : ProviderData := ⟨.ok [], .ok exMem, .ok exDisk, .ok [exStatB], .error ()⟩

/-- Two interfaces, reported in non-alphabetical order. -/
def exP3 : ProviderData := ⟨.ok [], .ok exMem, .ok exDisk, .ok [exStatC, exStatA], .error ()⟩

/-- Only wlan0 reported (eth0 absent). -/
def exP4 : ProviderData := ⟨.ok [], .ok exMem, .ok exDisk, .ok [exStatC], .error ()⟩

/-- eth0 reported twice in a single response. -/
def exP5 : ProviderData := ⟨.ok [], .ok exMem, .ok exDisk, .ok [exStatA, exStatB], .error ()⟩

/-- The counter state after processing [exStatA] from the empty state. -/
def exSt1 : NetState := fun k => if k = "eth0" then some ⟨"eth0", 100, 200⟩ else none

/-- Example write outcome: subscriber 1's write succeeds, all others
(in particular subscriber 0's) fail. -/
def exWriteOk : ℕ → Bool := fun c => c == 1

/-! ## Helper lemmas about the embedding -/

theorem usub_eq_sub {a b : ℕ} (h1 : b ≤ a) (h2 : a < 2 ^ 64) : usub a b = a - b := by
  unfold usub
  omega

theorem mkDelta_name (prev : Option NetworkUsage) (s : IOCountersStat) :
    (mkDelta prev s).name = s.name := by
  cases prev <;> rfl

theorem processNetStats_cons (s : IOCountersStat) (rest : List IOCountersStat)
    (st : NetState) :
    processNetStats (s :: rest) st =
      ((processStat st s).1 :: (processNetStats rest (processStat st s).2).1,
       (processNetStats rest (processStat st s).2).2) := rfl

theorem processNetStats_append (a b : List IOCountersStat) (st : NetState) :
    processNetStats (a ++ b) st =
      ((processNetStats a st).1 ++ (processNetStats b (processNetStats a st).2).1,
       (processNetStats b (processNetStats a st).2).2) := by
  induction a generalizing st with
  | nil => rfl
  | cons s rest ih =>
    simp only [List.cons_append, processNetStats_cons, ih, List.cons_append]

theorem processStat_snd_self (st : NetState) (s : IOCountersStat) :
    (processStat st s).2 s.name = some ⟨s.name, s.bytesSent, s.bytesRecv⟩ := by
  simp [processStat]

theorem processStat_snd_other (st : NetState) (s : IOCountersStat) {k : String}
    (h : s.name ≠ k) : (processStat st s).2 k = st k := by
  simp only [processStat]
  rw [if_neg (fun hk => h hk.symm)]

theorem processNetStats_snd_notmem (stats : List IOCountersStat) (st : NetState)
    (k : String) (h : ∀ s ∈ stats, s.name ≠ k) :
    (processNetStats stats st).2 k = st k := by
  induction stats generalizing st with
  | nil => rfl
  | cons s rest ih =>
    rw [processNetStats_cons]
    exact (ih _ (fun t ht => h t (List.mem_cons_of_mem _ ht))).trans
      (processStat_snd_other st s (h s (List.mem_cons_self _ _)))

theorem processNetStats_snd_reported (stats : List IOCountersStat) (st : NetState) :
    ∀ s ∈ stats, ∃ t, t ∈ stats ∧ t.name = s.name ∧
      (processNetStats stats st).2 s.name = some ⟨t.name, t.bytesSent, t.bytesRecv⟩ := by
  induction stats generalizing st with
  | nil => intro s hs; exact absurd hs (List.not_mem_nil s)
  | cons hd rest ih =>
    intro s hs
    by_cases hk : ∃ t ∈ rest, t.name = s.name
    · obtain ⟨t, ht, hts⟩ := hk
      obtain ⟨u, hu, hut, hstate⟩ := ih (processStat st hd).2 t ht
      refine ⟨u, List.mem_cons_of_mem _ hu, hut.trans hts, ?_⟩
      rw [processNetStats_cons]
      rw [hts] at hstate
      exact hstate
    · push_neg at hk
      rcases List.mem_cons.mp hs with rfl | hs'
      · refine ⟨s, List.mem_cons_self _ _, rfl, ?_⟩
        rw [processNetStats_cons]
        exact (processNetStats_snd_notmem _ _ _ (fun t ht => hk t ht)).trans
          (processStat_snd_self st s)
      · exact absurd rfl (hk s hs')

theorem processNetStats_snd_ne_none (stats : List IOCountersStat) (st : NetState)
    (k : String) (h : st k ≠ none) :
    (processNetStats stats st).2 k ≠ none := by
  induction stats generalizing st with
  | nil => exact h
  | cons s rest ih =>
    rw [processNetStats_cons]
    refine ih _ ?_
    by_cases hk : k = s.name
    · subst hk
      rw [processStat_snd_self]
      exact fun hcon => Option.noConfusion hcon
    · rw [processStat_snd_other st s (fun he => hk he.symm)]
      exact h

theorem processNetStats_fst_names (stats : List IOCountersStat) (st : NetState) :
    ((processNetStats stats st).1).map NetworkUsage.name =
      stats.map IOCountersStat.name := by
  induction stats generalizing st with
  | nil => rfl
  | cons s rest ih =>
    rw [processNetStats_cons]
    simp only [List.map_cons]
    rw [ih]
    simp only [processStat, mkDelta_name]

theorem mem_sortNetwork {u : NetworkUsage} {l : List NetworkUsage} :
    u ∈ sortNetwork l ↔ u ∈ l :=
  (List.perm_insertionSort netLE l).mem_iff

theorem countP_sortNetwork (q : NetworkUsage → Bool) (l : List NetworkUsage) :
    (sortNetwork l).countP q = l.countP q :=
  (List.perm_insertionSort netLE l).countP_eq q

theorem sorted_sortNetwork (l : List NetworkUsage) :
    (sortNetwork l).Pairwise netLE :=
  List.sorted_insertionSort netLE l

theorem network_mk (c : List F) (mm : MemInfo) (dd : DiskInfo)
    (nw : List NetworkUsage) (pp : Option (List PM2Process)) :
    Metrics.network ⟨c, mm, dd, nw, pp⟩ = nw := rfl

theorem getMetrics_ok_eq (p : ProviderData) (st : NetState) (cl : List F)
    (ms : MemInfo) (ds : DiskInfo) (ns : List IOCountersStat)
    (h1 : p.cpuPercent = .ok cl) (h2 : p.virtualMemory = .ok ms)
    (h3 : p.diskUsage = .ok ds) (h4 : p.ioCounters = .ok ns) :
    getMetrics p st =
      (.ok ⟨cl.map (fun v => truncateToDecimals v 2),
            ⟨ms.total, ms.free, ms.used⟩,
            ⟨ds.total, ds.free, ds.used⟩,
            sortNetwork (processNetStats ns st).1,
            pm2FromResult p.pm2Jlist⟩,
       (processNetStats ns st).2) := by
  obtain ⟨c, md, dd, io, pm⟩ := p
  change c = _ at h1
  change md = _ at h2
  change dd = _ at h3
  change io = _ at h4
  subst h1 h2 h3 h4
  rfl

theorem getMetrics_err_state (p : ProviderData) (st : NetState) (e : Stage)
    (st2 : NetState) (h : getMetrics p st = (.error e, st2)) : st2 = st := by
  obtain ⟨c, md, dd, io, pm⟩ := p
  cases c <;> cases md <;> cases dd <;> cases io <;>
    simp only [getMetrics, Prod.mk.injEq] at h <;>
    first
      | exact h.2.symm
      | exact absurd h.1 (fun hc => Except.noConfusion hc)

theorem getMetrics_ok_inv (p : ProviderData) (st : NetState) (m : Metrics)
    (st2 : NetState) (h : getMetrics p st = (.ok m, st2)) :
    ∃ cl ms ds ns, p.cpuPercent = .ok cl ∧ p.virtualMemory = .ok ms ∧
      p.diskUsage = .ok ds ∧ p.ioCounters = .ok ns := by
  obtain ⟨c, md, dd, io, pm⟩ := p
  cases c <;> cases md <;> cases dd <;> cases io <;>
    simp only [getMetrics, Prod.mk.injEq] at h <;>
    first
      | exact absurd h.1 (fun hc => Except.noConfusion hc)
      | exact ⟨_, _, _, _, rfl, rfl, rfl, rfl⟩

theorem processStat_fst (st : NetState) (s : IOCountersStat) :
    (processStat st s).1 = mkDelta (st s.name) s := rfl

theorem processNetStats_fst_cons (s : IOCountersStat) (rest : List IOCountersStat)
    (st : NetState) :
    (processNetStats (s :: rest) st).1 =
      (processStat st s).1 :: (processNetStats rest (processStat st s).2).1 := rfl

theorem processNetStats_snd_cons (s : IOCountersStat) (rest : List IOCountersStat)
    (st : NetState) :
    (processNetStats (s :: rest) st).2 =
      (processNetStats rest (processStat st s).2).2 := rfl

theorem processNetStats_fst_append (a b : List IOCountersStat) (st : NetState) :
    (processNetStats (a ++ b) st).1 =
      (processNetStats a st).1 ++ (processNetStats b (processNetStats a st).2).1 := by
  rw [processNetStats_append]

theorem processNetStats_snd_append (a b : List IOCountersStat) (st : NetState) :
    (processNetStats (a ++ b) st).2 =
      (processNetStats b (processNetStats a st).2).2 := by
  rw [processNetStats_append]

theorem notmem_names {a : List IOCountersStat} {n : String}
    (h : n ∉ a.map IOCountersStat.name) : ∀ s ∈ a, s.name ≠ n := by
  intro s hs hcon
  exact h (hcon ▸ List.mem_map_of_mem IOCountersStat.name hs)

/-- If e is the only entry of its name in stats, the loop emits exactly
the delta of e against the incoming state and afterwards stores e's
cumulative counters under e.name. -/
theorem processNetStats_unique (stats : List IOCountersStat) (st : NetState)
    (e : IOCountersStat) (he : e ∈ stats)
    (hnd : (stats.map IOCountersStat.name).Nodup) :
    mkDelta (st e.name) e ∈ (processNetStats stats st).1 ∧
    (processNetStats stats st).2 e.name = some ⟨e.name, e.bytesSent, e.bytesRecv⟩ := by
  obtain ⟨a, b, rfl⟩ := List.append_of_mem he
  rw [List.map_append, List.map_cons] at hnd
  rw [List.nodup_append] at hnd
  obtain ⟨-, hndc, hdisj⟩ := hnd
  have hna : ∀ s ∈ a, s.name ≠ e.name := by
    refine notmem_names (fun hmem => ?_)
    exact hdisj hmem (List.mem_cons_self _ _)
  have hnb : ∀ s ∈ b, s.name ≠ e.name :=
    notmem_names (List.nodup_cons.mp hndc).1
  have hstA : (processNetStats a st).2 e.name = st e.name :=
    processNetStats_snd_notmem a st e.name hna
  constructor
  · rw [processNetStats_fst_append, processNetStats_fst_cons, processStat_fst, hstA]
    exact List.mem_append_right _ (List.mem_cons_self _ _)
  · rw [processNetStats_snd_append, processNetStats_snd_cons]
    exact (processNetStats_snd_notmem b _ e.name hnb).trans
      (processStat_snd_self _ e)

/-- Snapshot-level counterpart of processNetStats_unique: a successful
getMetrics call whose provider response lists e (with no duplicate of
its name) puts the delta of e against the incoming stored counters into
the snapshot's network field and stores e's cumulative counters. -/
theorem getMetrics_network_delta (p : ProviderData) (st : NetState) (m : Metrics)
    (st2 : NetState) (ns : List IOCountersStat) (e : IOCountersStat)
    (hio : p.ioCounters = .ok ns)
    (hg : getMetrics p st = (.ok m, st2))
    (hnd : (ns.map IOCountersStat.name).Nodup)
    (he : e ∈ ns) :
    mkDelta (st e.name) e ∈ m.network ∧
    st2 e.name = some ⟨e.name, e.bytesSent, e.bytesRecv⟩ := by
  obtain ⟨cl, ms, ds, ns', hc, hm, hd, hio'⟩ := getMetrics_ok_inv p st m st2 hg
  rw [hio] at hio'
  obtain rfl : ns = ns' := by injection hio'
  rw [getMetrics_ok_eq p st cl ms ds ns hc hm hd hio] at hg
  rw [Prod.mk.injEq] at hg
  obtain ⟨hg1, hg2⟩ := hg
  obtain rfl : _ = m := by injection hg1
  obtain ⟨hmem, hstore⟩ := processNetStats_unique ns st e he hnd
  exact ⟨mem_sortNetwork.mpr hmem, hg2 ▸ hstore⟩

theorem truncateToDecimalsExact_idem (v : ℚ) :
    truncateToDecimalsExact (truncateToDecimalsExact v 2) 2 =
      truncateToDecimalsExact v 2 := by
  show (mathTruncQ ((mathTruncQ (v * 10 ^ 2) : ℚ) / 10 ^ 2 * 10 ^ 2) : ℚ) / 10 ^ 2 =
    (mathTruncQ (v * 10 ^ 2) : ℚ) / 10 ^ 2
  have h100 : ((10 : ℚ) ^ 2) ≠ 0 := by norm_num
  rw [div_mul_cancel₀ _ h100]
  have hint : ∀ n : ℤ, mathTruncQ (n : ℚ) = n := by
    intro n
    unfold mathTruncQ
    split
    · exact Int.floor_intCast n
    · exact Int.ceil_intCast n
  rw [hint]

theorem sendMetricsTick_empty {Conn : Type} [DecidableEq Conn]
    (writeOk : Conn → Bool) (p : ProviderData) (st : NetState) :
    sendMetricsTick ([] : List Conn) writeOk p st = ⟨[], st, fun _ => none, none⟩ := rfl

theorem sendMetricsTick_err {Conn : Type} [DecidableEq Conn]
    (conns : List Conn) (writeOk : Conn → Bool) (p : ProviderData) (st : NetState)
    (e : Stage) (st2 : NetState)
    (hm : getMetrics p st = (.error e, st2)) (hne : conns ≠ []) :
    sendMetricsTick conns writeOk p st = ⟨conns, st2, fun _ => none, some (.error e)⟩ := by
  unfold sendMetricsTick
  rw [hm, if_neg (by simpa using hne)]

theorem sendMetricsTick_ok {Conn : Type} [DecidableEq Conn]
    (conns : List Conn) (writeOk : Conn → Bool) (p : ProviderData) (st : NetState)
    (m : Metrics) (st2 : NetState)
    (hm : getMetrics p st = (.ok m, st2)) (hne : conns ≠ []) :
    sendMetricsTick conns writeOk p st =
      ⟨conns.filter writeOk, st2,
       fun c => if c ∈ conns ∧ writeOk c then some m else none,
       some (.ok m)⟩ := by
  unfold sendMetricsTick
  rw [hm, if_neg (by simpa using hne)]

/-! ## Claim theorems -/

/-- C1: over two consecutive successful sampling cycles, the delta an
interface gets in the second cycle is its current cumulative counter
minus the cumulative counter stored by the previous cycle (when the
counter did not decrease), and in the first cycle in which an interface
appears (no stored entry) the reported delta is the full cumulative
count. -/
theorem networkDelta_consecutive (p1 p2 : ProviderData) (st st1 st2 : NetState)
    (m1 m2 : Metrics) (ns1 ns2 : List IOCountersStat) (e1 e2 : IOCountersStat)
    (hio1 : p1.ioCounters = .ok ns1) (hio2 : p2.ioCounters = .ok ns2)
    (hg1 : getMetrics p1 st = (.ok m1, st1)) (hg2 : getMetrics p2 st1 = (.ok m2, st2))
    (hnd1 : (ns1.map IOCountersStat.name).Nodup)
    (hnd2 : (ns2.map IOCountersStat.name).Nodup)
    (he1 : e1 ∈ ns1) (he2 : e2 ∈ ns2) (hname : e2.name = e1.name)
    (hs : e1.bytesSent ≤ e2.bytesSent) (hr : e1.bytesRecv ≤ e2.bytesRecv)
    (hbs : e2.bytesSent < 2 ^ 64) (hbr : e2.bytesRecv < 2 ^ 64) :
    (st e1.name = none →
      (⟨e1.name, e1.bytesSent, e1.bytesRecv⟩ : NetworkUsage) ∈ m1.network) ∧
    (⟨e2.name, e2.bytesSent - e1.bytesSent, e2.bytesRecv - e1.bytesRecv⟩ :
      NetworkUsage) ∈ m2.network := by
  obtain ⟨hmem1, hstore1⟩ :=
    getMetrics_network_delta p1 st m1 st1 ns1 e1 hio1 hg1 hnd1 he1
  obtain ⟨hmem2, hstore2⟩ :=
    getMetrics_network_delta p2 st1 m2 st2 ns2 e2 hio2 hg2 hnd2 he2
  constructor
  · intro hnone
    rw [hnone] at hmem1
    exact hmem1
  · have hprev : st1 e2.name = some ⟨e1.name, e1.bytesSent, e1.bytesRecv⟩ := by
      rw [hname, hstore1]
    rw [hprev] at hmem2
    have hd : mkDelta (some ⟨e1.name, e1.bytesSent, e1.bytesRecv⟩) e2 =
        ⟨e2.name, e2.bytesSent - e1.bytesSent, e2.bytesRecv - e1.bytesRecv⟩ := by
      simp only [mkDelta]
      rw [usub_eq_sub hs hbs, usub_eq_sub hr hbr]
    rw [hd] at hmem2
    exact hmem2

/-- Witness for C1: starting from the empty state, cycle 1 reports
eth0's full cumulative counters (100, 200) as the delta, and cycle 2
(counters 150, 260) reports the difference (50, 60). -/
theorem networkDelta_consecutive_witness :
    ((⟨"eth0", 100, 200⟩ : NetworkUsage) ∈
      Metrics.network ⟨[], exMem, exDisk, sortNetwork (processNetStats [exStatA] exSt0).1,
        none⟩) ∧
    ((⟨"eth0", 50, 60⟩ : NetworkUsage) ∈
      Metrics.network ⟨[], exMem, exDisk,
        sortNetwork (processNetStats [exStatB] (processNetStats [exStatA] exSt0).2).1,
        none⟩) := by
  have h := networkDelta_consecutive exP1 exP2 exSt0
    (processNetStats [exStatA] exSt0).2
    (processNetStats [exStatB] (processNetStats [exStatA] exSt0).2).2
    ⟨[], exMem, exDisk, sortNetwork (processNetStats [exStatA] exSt0).1, none⟩
    ⟨[], exMem, exDisk,
      sortNetwork (processNetStats [exStatB] (processNetStats [exStatA] exSt0).2).1, none⟩
    [exStatA] [exStatB] exStatA exStatB
    rfl rfl rfl rfl (by decide) (by decide)
    (List.mem_cons_self _ _) (List.mem_cons_self _ _)
    rfl (by decide) (by decide) (by decide) (by decide)
  exact ⟨h.1 rfl, h.2⟩

/-- C2: when any mandatory provider query fails, getMetrics returns an
error and the counter state is unchanged; when the call reaches a
successful network query, the state becomes exactly the post-loop state,
which stores, for each reported interface, cumulative values reported
for it in that same call. -/
theorem getMetrics_state_contract :
    (∀ p st e st2, getMetrics p st = (.error e, st2) → st2 = st) ∧
    (∀ p st m st2 ns, p.ioCounters = .ok ns → getMetrics p st = (.ok m, st2) →
      st2 = (processNetStats ns st).2 ∧
      ∀ s ∈ ns, ∃ t, t ∈ ns ∧ t.name = s.name ∧
        st2 s.name = some ⟨t.name, t.bytesSent, t.bytesRecv⟩) := by
  constructor
  · exact getMetrics_err_state
  · intro p st m st2 ns hio hg
    obtain ⟨cl, ms, ds, ns', hc, hm, hd, hio'⟩ := getMetrics_ok_inv p st m st2 hg
    rw [hio] at hio'
    obtain rfl : ns = ns' := by injection hio'
    rw [getMetrics_ok_eq p st cl ms ds ns hc hm hd hio, Prod.mk.injEq] at hg
    refine ⟨hg.2.symm, fun s hs => ?_⟩
    obtain ⟨t, ht, hts, hstate⟩ := processNetStats_snd_reported ns st s hs
    exact ⟨t, ht, hts, hg.2 ▸ hstate⟩

/-- Witness for C2: a failing CPU query leaves the empty state empty,
and a successful call through exP1 stores eth0's cumulative counters. -/
theorem getMetrics_state_contract_witness :
    (getMetrics exPcpuErr exSt0).2 = exSt0 ∧
    (getMetrics exP1 exSt0).2 "eth0" = some ⟨"eth0", 100, 200⟩ := by
  constructor
  · exact getMetrics_state_contract.1 exPcpuErr exSt0 .cpu _ rfl
  · obtain ⟨-, h⟩ := getMetrics_state_contract.2 exP1 exSt0
      ⟨[], exMem, exDisk, sortNetwork (processNetStats [exStatA] exSt0).1, none⟩
      (getMetrics exP1 exSt0).2 [exStatA] rfl rfl
    obtain ⟨t, ht, hts, hstate⟩ := h exStatA (List.mem_cons_self _ _)
    rw [List.mem_singleton] at ht
    subst ht
    exact hstate

/-- C5: when CPU, memory, disk and network succeed but the pm2 query
fails, getMetrics still returns a successful snapshot whose pm2 field is
omitted (none); the pm2 failure never surfaces as an error. -/
theorem getMetrics_pm2_optional (p : ProviderData) (st : NetState)
    (cl : List F) (ms : MemInfo) (ds : DiskInfo) (ns : List IOCountersStat)
    (h1 : p.cpuPercent = .ok cl) (h2 : p.virtualMemory = .ok ms)
    (h3 : p.diskUsage = .ok ds) (h4 : p.ioCounters = .ok ns)
    (h5 : p.pm2Jlist = .error ()) :
    getMetrics p st =
      (.ok ⟨cl.map (fun v => truncateToDecimals v 2),
            ⟨ms.total, ms.free, ms.used⟩,
            ⟨ds.total, ds.free, ds.used⟩,
            sortNetwork (processNetStats ns st).1,
            none⟩,
       (processNetStats ns st).2) := by
  rw [getMetrics_ok_eq p st cl ms ds ns h1 h2 h3 h4, h5]
  rfl

/-- Witness for C5: exP1 has a failing pm2 query and getMetrics still
succeeds, with pm2 = none in the snapshot. -/
theorem getMetrics_pm2_optional_witness :
    getMetrics exP1 exSt0 =
      (.ok ⟨[], ⟨exMem.total, exMem.free, exMem.used⟩,
            ⟨exDisk.total, exDisk.free, exDisk.used⟩,
            sortNetwork (processNetStats [exStatA] exSt0).1,
            none⟩,
       (processNetStats [exStatA] exSt0).2) :=
  getMetrics_pm2_optional exP1 exSt0 [] exMem exDisk [exStatA] rfl rfl rfl rfl rfl

/-- C7: the network field of every successfully built snapshot is
sorted by interface name ascending, whatever order the provider
reported. -/
theorem network_sorted (p : ProviderData) (st : NetState) (m : Metrics)
    (st2 : NetState) (h : getMetrics p st = (.ok m, st2)) :
    m.network.Pairwise netLE := by
  obtain ⟨cl, ms, ds, ns, hc, hm, hd, hio⟩ := getMetrics_ok_inv p st m st2 h
  rw [getMetrics_ok_eq p st cl ms ds ns hc hm hd hio, Prod.mk.injEq] at h
  obtain rfl : _ = m := by injection h.1
  exact sorted_sortNetwork _

/-- Witness for C7: the provider reports wlan0 before eth0, and the
snapshot's network field is nevertheless name-ascending. -/
theorem network_sorted_witness :
    (Metrics.network ⟨[], exMem, exDisk,
      sortNetwork (processNetStats [exStatC, exStatA] exSt0).1, none⟩).Pairwise
      netLE :=
  network_sorted exP3 exSt0 _ _ rfl

/-- C9: the counter state only ever grows: no call removes an entry; a
successful build stores, for every reported interface, cumulative values
reported in that call; an interface absent from the response keeps its
stored values; consequently an interface that disappears for a cycle and
then reappears has its delta computed against its pre-disappearance
cumulative counters. -/
theorem counterState_monotone :
    (∀ p st r st2 k, getMetrics p st = (r, st2) → st k ≠ none → st2 k ≠ none) ∧
    (∀ p st m st2 ns, p.ioCounters = .ok ns → getMetrics p st = (.ok m, st2) →
      (∀ s ∈ ns, ∃ t, t ∈ ns ∧ t.name = s.name ∧
        st2 s.name = some ⟨t.name, t.bytesSent, t.bytesRecv⟩) ∧
      (∀ k, (∀ s ∈ ns, s.name ≠ k) → st2 k = st k)) ∧
    (∀ p1 p2 p3 st st1 st2 st3 m1 m2 m3 ns1 ns2 ns3 e1 e3,
      p1.ioCounters = .ok ns1 → p2.ioCounters = .ok ns2 → p3.ioCounters = .ok ns3 →
      getMetrics p1 st = (.ok m1, st1) → getMetrics p2 st1 = (.ok m2, st2) →
      getMetrics p3 st2 = (.ok m3, st3) →
      (ns1.map IOCountersStat.name).Nodup → (ns3.map IOCountersStat.name).Nodup →
      e1 ∈ ns1 → e3 ∈ ns3 → e3.name = e1.name →
      (∀ s ∈ ns2, s.name ≠ e1.name) →
      e1.bytesSent ≤ e3.bytesSent → e1.bytesRecv ≤ e3.bytesRecv →
      e3.bytesSent < 2 ^ 64 → e3.bytesRecv < 2 ^ 64 →
      (⟨e3.name, e3.bytesSent - e1.bytesSent, e3.bytesRecv - e1.bytesRecv⟩ :
        NetworkUsage) ∈ m3.network) := by
  refine ⟨?_, ?_, ?_⟩
  · intro p st r st2 k hg hne
    cases r with
    | error e =>
      rw [getMetrics_err_state p st e st2 hg]
      exact hne
    | ok m =>
      obtain ⟨cl, ms, ds, ns, hc, hm, hd, hio⟩ := getMetrics_ok_inv p st m st2 hg
      rw [getMetrics_ok_eq p st cl ms ds ns hc hm hd hio, Prod.mk.injEq] at hg
      rw [← hg.2]
      exact processNetStats_snd_ne_none ns st k hne
  · intro p st m st2 ns hio hg
    obtain ⟨cl, ms, ds, ns', hc, hm, hd, hio'⟩ := getMetrics_ok_inv p st m st2 hg
    rw [hio] at hio'
    obtain rfl : ns = ns' := by injection hio'
    rw [getMetrics_ok_eq p st cl ms ds ns hc hm hd hio, Prod.mk.injEq] at hg
    constructor
    · intro s hs
      obtain ⟨t, ht, hts, hstate⟩ := processNetStats_snd_reported ns st s hs
      exact ⟨t, ht, hts, hg.2 ▸ hstate⟩
    · intro k hk
      rw [← hg.2]
      exact processNetStats_snd_notmem ns st k hk
  · intro p1 p2 p3 st st1 st2 st3 m1 m2 m3 ns1 ns2 ns3 e1 e3
    intro hio1 hio2 hio3 hg1 hg2 hg3 hnd1 hnd3 he1 he3 hname habs hs hr hbs hbr
    obtain ⟨-, hstore1⟩ :=
      getMetrics_network_delta p1 st m1 st1 ns1 e1 hio1 hg1 hnd1 he1
    obtain ⟨cl2, ms2, ds2, ns2', hc2, hm2, hd2, hio2'⟩ :=
      getMetrics_ok_inv p2 st1 m2 st2 hg2
    rw [hio2] at hio2'
    obtain rfl : ns2 = ns2' := by injection hio2'
    rw [getMetrics_ok_eq p2 st1 cl2 ms2 ds2 ns2 hc2 hm2 hd2 hio2,
      Prod.mk.injEq] at hg2
    have hst2 : st2 e1.name = st1 e1.name := by
      rw [← hg2.2]
      exact processNetStats_snd_notmem ns2 st1 e1.name habs
    obtain ⟨hmem3, -⟩ :=
      getMetrics_network_delta p3 st2 m3 st3 ns3 e3 hio3 hg3 hnd3 he3
    have hprev : st2 e3.name = some ⟨e1.name, e1.bytesSent, e1.bytesRecv⟩ := by
      rw [hname, hst2, hstore1]
    rw [hprev] at hmem3
    have hd : mkDelta (some ⟨e1.name, e1.bytesSent, e1.bytesRecv⟩) e3 =
        ⟨e3.name, e3.bytesSent - e1.bytesSent, e3.bytesRecv - e1.bytesRecv⟩ := by
      simp only [mkDelta]
      rw [usub_eq_sub hs hbs, usub_eq_sub hr hbr]
    rw [hd] at hmem3
    exact hmem3

/-- Witness for C9: eth0 is reported in cycle 1 (100, 200), absent in
cycle 2 (only wlan0 reported, eth0 keeps its stored entry), reported
again in cycle 3 (150, 260): cycle 3's delta is computed against the
pre-disappearance counters, giving (50, 60); moreover a cycle never
erases the eth0 entry. -/
theorem counterState_monotone_witness :
    ((⟨"eth0", 50, 60⟩ : NetworkUsage) ∈
      Metrics.network ⟨[], exMem, exDisk,
        sortNetwork (processNetStats [exStatB]
          (processNetStats [exStatC] (processNetStats [exStatA] exSt0).2).2).1,
        none⟩) ∧
    (processNetStats [exStatC] (processNetStats [exStatA] exSt0).2).2 "eth0" ≠ none := by
  constructor
  · exact counterState_monotone.2.2 exP1 exP4 exP2 exSt0
      (processNetStats [exStatA] exSt0).2
      (processNetStats [exStatC] (processNetStats [exStatA] exSt0).2).2
      (processNetStats [exStatB]
        (processNetStats [exStatC] (processNetStats [exStatA] exSt0).2).2).2
      ⟨[], exMem, exDisk, sortNetwork (processNetStats [exStatA] exSt0).1, none⟩
      ⟨[], exMem, exDisk,
        sortNetwork (processNetStats [exStatC] (processNetStats [exStatA] exSt0).2).1,
        none⟩
      ⟨[], exMem, exDisk,
        sortNetwork (processNetStats [exStatB]
          (processNetStats [exStatC] (processNetStats [exStatA] exSt0).2).2).1,
        none⟩
      [exStatA] [exStatC] [exStatB] exStatA exStatB
      rfl rfl rfl rfl rfl rfl (by decide) (by decide)
      (List.mem_cons_self _ _) (List.mem_cons_self _ _) rfl
      (by decide) (by decide) (by decide) (by decide) (by decide)
  · exact counterState_monotone.1 exP4 (processNetStats [exStatA] exSt0).2
      (.ok ⟨[], exMem, exDisk,
        sortNetwork (processNetStats [exStatC] (processNetStats [exStatA] exSt0).2).1,
        none⟩)
      (processNetStats [exStatC] (processNetStats [exStatA] exSt0).2).2 "eth0"
      rfl (by decide)

/-- C10: when a single provider response lists the same interface name
twice, the snapshot carries two entries for that name: one delta against
the previously stored counters, one delta of the second occurrence
against the first occurrence's just-stored counters; afterwards the
state holds the second occurrence's cumulative values. -/
theorem duplicate_interface (p : ProviderData) (st : NetState) (m : Metrics)
    (st2 : NetState) (l1 l2 l3 : List IOCountersStat) (e1 e2 : IOCountersStat)
    (n : String)
    (hio : p.ioCounters = .ok (l1 ++ e1 :: (l2 ++ e2 :: l3)))
    (hg : getMetrics p st = (.ok m, st2))
    (hn1 : e1.name = n) (hn2 : e2.name = n)
    (ho1 : ∀ s ∈ l1, s.name ≠ n) (ho2 : ∀ s ∈ l2, s.name ≠ n)
    (ho3 : ∀ s ∈ l3, s.name ≠ n) :
    m.network.countP (fun u => u.name == n) = 2 ∧
    mkDelta (st n) e1 ∈ m.network ∧
    (⟨n, usub e2.bytesSent e1.bytesSent, usub e2.bytesRecv e1.bytesRecv⟩ :
      NetworkUsage) ∈ m.network ∧
    st2 n = some ⟨n, e2.bytesSent, e2.bytesRecv⟩ := by
  subst hn1
  obtain ⟨cl, ms, ds, ns', hc, hm, hd, hio'⟩ := getMetrics_ok_inv p st m st2 hg
  rw [hio] at hio'
  obtain rfl : l1 ++ e1 :: (l2 ++ e2 :: l3) = ns' := by injection hio'
  rw [getMetrics_ok_eq p st cl ms ds _ hc hm hd hio, Prod.mk.injEq] at hg
  obtain ⟨hg1, hg2⟩ := hg
  obtain rfl : _ = m := by injection hg1
  have hA : (processNetStats l1 st).2 e1.name = st e1.name :=
    processNetStats_snd_notmem l1 st e1.name ho1
  have hE1 : (processStat (processNetStats l1 st).2 e1).2 e1.name =
      some ⟨e1.name, e1.bytesSent, e1.bytesRecv⟩ :=
    processStat_snd_self _ e1
  have hB : (processNetStats l2 (processStat (processNetStats l1 st).2 e1).2).2 e2.name =
      some ⟨e1.name, e1.bytesSent, e1.bytesRecv⟩ := by
    rw [hn2]
    exact (processNetStats_snd_notmem l2 _ e1.name ho2).trans hE1
  refine ⟨?_, ?_, ?_, ?_⟩
  · rw [network_mk, countP_sortNetwork]
    have hmapped : (processNetStats (l1 ++ e1 :: (l2 ++ e2 :: l3)) st).1.countP
        (fun u => u.name == e1.name) =
        ((processNetStats (l1 ++ e1 :: (l2 ++ e2 :: l3)) st).1.map
          NetworkUsage.name).countP (fun x => x == e1.name) := by
      rw [List.countP_map]
      rfl
    rw [hmapped, processNetStats_fst_names]
    have hz : ∀ (l : List IOCountersStat), (∀ s ∈ l, s.name ≠ e1.name) →
        (l.map IOCountersStat.name).countP (fun x => x == e1.name) = 0 := by
      intro l hl
      rw [List.countP_eq_zero]
      intro x hx
      obtain ⟨s, hsl, rfl⟩ := List.mem_map.mp hx
      simpa using hl s hsl
    rw [List.map_append, List.map_cons, List.map_append, List.map_cons]
    rw [List.countP_append, List.countP_cons, List.countP_append, List.countP_cons]
    rw [hz l1 ho1, hz l2 ho2, hz l3 ho3, hn2]
    simp
  · rw [network_mk, mem_sortNetwork, processNetStats_fst_append,
      processNetStats_fst_cons, processStat_fst, hA]
    exact List.mem_append_right _ (List.mem_cons_self _ _)
  · rw [network_mk, mem_sortNetwork, processNetStats_fst_append,
      processNetStats_fst_cons]
    refine List.mem_append_right _ (List.mem_cons_of_mem _ ?_)
    rw [processNetStats_fst_append, processNetStats_fst_cons, processStat_fst, hB]
    refine List.mem_append_right _ ?_
    have hd2 : mkDelta (some ⟨e1.name, e1.bytesSent, e1.bytesRecv⟩) e2 =
        ⟨e1.name, usub e2.bytesSent e1.bytesSent, usub e2.bytesRecv e1.bytesRecv⟩ := by
      simp only [mkDelta]
      rw [hn2]
    rw [hd2]
    exact List.mem_cons_self _ _
  · rw [← hg2, processNetStats_snd_append, processNetStats_snd_cons,
      processNetStats_snd_append, processNetStats_snd_cons]
    have hlast : (processNetStats l3
        (processStat (processNetStats l2
          (processStat (processNetStats l1 st).2 e1).2).2 e2).2).2 e1.name =
        some ⟨e2.name, e2.bytesSent, e2.bytesRecv⟩ := by
      rw [← hn2]
      exact (processNetStats_snd_notmem l3 _ e2.name
        (fun s hsl => hn2 ▸ ho3 s hsl)).trans (processStat_snd_self _ e2)
    rw [hlast, hn2]

/-- Witness for C10: the response [eth0 (100, 200), eth0 (150, 260)]
processed from the empty state yields two eth0 entries, with deltas
(100, 200) (no prior entry) and (50, 60), and stores (150, 260). -/
theorem duplicate_interface_witness :
    (Metrics.network ⟨[], exMem, exDisk,
      sortNetwork (processNetStats [exStatA, exStatB] exSt0).1, none⟩).countP
      (fun u => u.name == "eth0") = 2 ∧
    mkDelta (exSt0 "eth0") exStatA ∈
      Metrics.network ⟨[], exMem, exDisk,
        sortNetwork (processNetStats [exStatA, exStatB] exSt0).1, none⟩ ∧
    (⟨"eth0", usub 150 100, usub 260 200⟩ : NetworkUsage) ∈
      Metrics.network ⟨[], exMem, exDisk,
        sortNetwork (processNetStats [exStatA, exStatB] exSt0).1, none⟩ ∧
    (processNetStats [exStatA, exStatB] exSt0).2 "eth0" = some ⟨"eth0", 150, 260⟩ :=
  duplicate_interface exP5 exSt0
    ⟨[], exMem, exDisk, sortNetwork (processNetStats [exStatA, exStatB] exSt0).1, none⟩
    (processNetStats [exStatA, exStatB] exSt0).2
    [] [] [] exStatA exStatB "eth0"
    rfl rfl rfl rfl
    (by intro s hsl; exact absurd hsl (List.not_mem_nil s))
    (by intro s hsl; exact absurd hsl (List.not_mem_nil s))
    (by intro s hsl; exact absurd hsl (List.not_mem_nil s))

/-- C4: in a broadcast cycle whose snapshot build succeeded, every
registered subscriber whose write fails is removed from the registry
(absent at the start of the next cycle) and receives nothing, while
every registered subscriber whose write succeeds stays registered and
receives exactly the cycle's snapshot. -/
theorem broadcast_partial_failure {Conn : Type} [DecidableEq Conn]
    (conns : List Conn) (writeOk : Conn → Bool) (p : ProviderData) (st : NetState)
    (m : Metrics) (st2 : NetState)
    (hm : getMetrics p st = (.ok m, st2)) :
    (∀ c ∈ conns, writeOk c = false →
      c ∉ (sendMetricsTick conns writeOk p st).registry ∧
      (sendMetricsTick conns writeOk p st).delivered c = none) ∧
    (∀ c ∈ conns, writeOk c = true →
      c ∈ (sendMetricsTick conns writeOk p st).registry ∧
      (sendMetricsTick conns writeOk p st).delivered c = some m) := by
  by_cases hc : conns = []
  · subst hc
    constructor <;> intro c hcm <;> exact absurd hcm (List.not_mem_nil c)
  · rw [sendMetricsTick_ok conns writeOk p st m st2 hm hc]
    constructor
    · intro c hcm hw
      constructor
      · show c ∉ conns.filter writeOk
        intro hmem
        rw [List.mem_filter, hw] at hmem
        exact Bool.noConfusion hmem.2
      · show (if c ∈ conns ∧ writeOk c then some m else none) = none
        rw [if_neg]
        rintro ⟨-, h2⟩
        rw [hw] at h2
        exact Bool.noConfusion h2
    · intro c hcm hw
      constructor
      · show c ∈ conns.filter writeOk
        rw [List.mem_filter]
        exact ⟨hcm, hw⟩
      · show (if c ∈ conns ∧ writeOk c then some m else none) = some m
        rw [if_pos ⟨hcm, hw⟩]

/-- Witness for C4: registry {0, 1}, subscriber 0's write fails and
subscriber 1's succeeds: afterwards 0 is gone and got nothing, 1 is
still registered and received exactly the snapshot. -/
theorem broadcast_partial_failure_witness :
    (0 ∉ (sendMetricsTick [0, 1] exWriteOk exP1 exSt0).registry) ∧
    (sendMetricsTick [0, 1] exWriteOk exP1 exSt0).delivered 0 = none ∧
    (1 ∈ (sendMetricsTick [0, 1] exWriteOk exP1 exSt0).registry) ∧
    (sendMetricsTick [0, 1] exWriteOk exP1 exSt0).delivered 1 =
      some ⟨[], exMem, exDisk, sortNetwork (processNetStats [exStatA] exSt0).1, none⟩ := by
  obtain ⟨hf, ht⟩ := broadcast_partial_failure [0, 1] exWriteOk exP1 exSt0
    ⟨[], exMem, exDisk, sortNetwork (processNetStats [exStatA] exSt0).1, none⟩
    (processNetStats [exStatA] exSt0).2 rfl
  obtain ⟨h0r, h0d⟩ := hf 0 (by decide) (by decide)
  obtain ⟨h1r, h1d⟩ := ht 1 (by decide) (by decide)
  exact ⟨h0r, h0d, h1r, h1d⟩

/-- C6: in a tick whose snapshot build fails, no snapshot is produced,
no subscriber is delivered anything, and the registry is unchanged by
the scheduler; the loop makes exactly one build attempt per tick by
construction, so nothing is retried within the tick. -/
theorem failed_build_skips_broadcast {Conn : Type} [DecidableEq Conn]
    (conns : List Conn) (writeOk : Conn → Bool) (p : ProviderData) (st : NetState)
    (e : Stage) (st2 : NetState)
    (hm : getMetrics p st = (.error e, st2)) :
    (sendMetricsTick conns writeOk p st).registry = conns ∧
    (∀ c, (sendMetricsTick conns writeOk p st).delivered c = none) ∧
    (∀ m, (sendMetricsTick conns writeOk p st).sampled ≠ some (.ok m)) := by
  by_cases hc : conns = []
  · subst hc
    exact ⟨rfl, fun c => rfl, fun m hcon => Option.noConfusion hcon⟩
  · rw [sendMetricsTick_err conns writeOk p st e st2 hm hc]
    refine ⟨rfl, fun c => rfl, fun m hcon => ?_⟩
    injection hcon with h
    exact Except.noConfusion h

/-- Witness for C6: the disk query fails, the registry {0, 1} stays as
it is and nobody receives anything. -/
theorem failed_build_skips_broadcast_witness :
    (sendMetricsTick [0, 1] exWriteOk exPdiskErr exSt0).registry = [0, 1] ∧
    (sendMetricsTick [0, 1] exWriteOk exPdiskErr exSt0).delivered 0 = none ∧
    (sendMetricsTick [0, 1] exWriteOk exPdiskErr exSt0).delivered 1 = none := by
  obtain ⟨hreg, hdel, -⟩ := failed_build_skips_broadcast [0, 1] exWriteOk
    exPdiskErr exSt0 .disk exSt0 rfl
  exact ⟨hreg, hdel 0, hdel 1⟩

/-- C8: a tick that observes an empty registry does nothing at all: it
keeps the registry empty, leaves the counter state untouched, delivers
nothing, makes no getMetrics call (the outcome does not depend on the
provider results at all), and never errors (sendMetricsTick is total). -/
theorem empty_registry_skips {Conn : Type} [DecidableEq Conn]
    (writeOk writeOk' : Conn → Bool) (p p' : ProviderData) (st : NetState) :
    sendMetricsTick ([] : List Conn) writeOk p st = ⟨[], st, fun _ => none, none⟩ ∧
    sendMetricsTick ([] : List Conn) writeOk p st =
      sendMetricsTick ([] : List Conn) writeOk' p' st :=
  ⟨rfl, rfl⟩

set_option maxRecDepth 1000000

/-- C3 counterexample: under float64 arithmetic the 2-decimal truncation
is not idempotent.  The representable input 0.296875 (= 19/64) truncates
to the float64 nearest 0.29, but truncating that value again yields the
float64 nearest 0.28 (0.29 * 100 rounds to 28.999999999999996..., which
math.Trunc cuts to 28).  Both the float64 representations and their
exact rational values differ. -/
theorem truncate_not_idempotent :
    truncateToDecimals (truncateToDecimals (roundRat 19 64) 2) 2 ≠
      truncateToDecimals (roundRat 19 64) 2 ∧
    toRat (truncateToDecimals (truncateToDecimals (roundRat 19 64) 2) 2) ≠
      toRat (truncateToDecimals (roundRat 19 64) 2) := by
  constructor
  · decide
  · have h1 : truncateToDecimals (roundRat 19 64) 2 = ⟨5224175567749775, -54⟩ := by
      decide
    have h2 : truncateToDecimals (truncateToDecimals (roundRat 19 64) 2) 2 =
        ⟨5044031582654956, -54⟩ := by
      decide
    rw [h2, h1]
    simp only [toRat]
    intro hcon
    have h2ne : ((2 : ℚ) ^ (-54 : ℤ)) ≠ 0 := zpow_ne_zero _ two_ne_zero
    have hmm := mul_right_cancel₀ h2ne hcon
    norm_num at hmm

/-- C3 amended: truncateToDecimals with precision 2 truncates toward
zero and does not round at the spec's example points (the float64
nearest 33.456 maps to the float64 nearest 33.45, 0 maps to 0, the
float64 nearest 99.999 maps to the float64 nearest 99.99), but the
operation is not idempotent under float64 arithmetic (truncating the
already-truncated value nearest 0.29 yields the value nearest 0.28);
idempotence does hold for the exact-arithmetic idealization of the same
formula. -/
theorem truncate_examples_and_exact_idem :
    truncateToDecimals (roundRat 33456 1000) 2 = roundRat 3345 100 ∧
    truncateToDecimals (roundRat 0 1) 2 = roundRat 0 1 ∧
    truncateToDecimals (roundRat 99999 1000) 2 = roundRat 9999 100 ∧
    truncateToDecimals (truncateToDecimals (roundRat 19 64) 2) 2 ≠
      truncateToDecimals (roundRat 19 64) 2 ∧
    ∀ v : ℚ, truncateToDecimalsExact (truncateToDecimalsExact v 2) 2 =
      truncateToDecimalsExact v 2 := by
  refine ⟨by decide, by decide, by decide, by decide, ?_⟩
  intro v
  exact truncateToDecimalsExact_idem v

end ServerManagment
